import Mathlib

/-!
Shallow embedding of the asset advanced-index query builder of shelf.nu
(`src/app/modules/asset/advanced-index-query.server.ts` and
`src/app/modules/asset/utils.server.ts`).

Modelling conventions:
* A `Prisma.Sql` value is a list of fragments: literal SQL text
  (`Frag.text`, also produced by `Prisma.raw`) and bound query parameters
  (`Frag.param`).  Interpolating a nested `Prisma.Sql` into a template
  splices its fragment list; interpolating a plain value appends one
  `Frag.param`.  `Prisma.empty` is the empty list.  `Prisma.join` of an
  empty array throws a `TypeError` in the underlying sql-template-tag
  library, which we model with `Option` (`none` = the call throws).
* JavaScript runtime values flowing through the (untyped) filter values
  are modelled by `JsVal`; the built-in `Number()` conversion is kept
  symbolic (`JsNum.ofString s` denotes `Number(s)`, `JsNum.ofUndefined`
  denotes `Number(undefined)`), since no claim depends on numeric
  arithmetic, only on which strings are converted and where the results
  are placed.
* `URLSearchParams` decoding is an external browser/node builtin; the
  functions that consume it are modelled from the point where the
  decoded key/value pairs are in hand.
-/

namespace Shelf

/-- Symbolic model of a JavaScript number: we record the argument that was
passed to the built-in `Number()` conversion instead of computing its
floating-point value (no claim performs numeric arithmetic). -/
inductive JsNum where
  | ofString : String → JsNum
  | ofUndefined : JsNum
deriving DecidableEq, Repr

/-- JavaScript runtime values that can appear as a filter value. -/
inductive JsVal where
  | str : String → JsVal
  | num : JsNum → JsVal
  | bool : Bool → JsVal
  | arr : List JsVal → JsVal
  | undefined : JsVal

/-- One fragment of a `Prisma.Sql` object: literal SQL text (template
text or `Prisma.raw`) or a bound query parameter. -/
inductive Frag where
  | text : String → Frag
  | param : JsVal → Frag

/-- A `Prisma.Sql` object, as the list of its fragments. -/
abbrev Sql := List Frag

/-- The raw SQL text of a `Prisma.Sql` object: the concatenation of its
literal text fragments (each bound parameter becomes a placeholder in the
actual query string, contributing none of the user text). -/
def textOf (s : Sql) : String :=
  s.foldr (fun f acc => match f with | .text t => t ++ acc | .param _ => acc) ""

/-- The bound parameters of a `Prisma.Sql` object, in order. -/
def paramsOf (s : Sql) : List JsVal :=
  s.foldr (fun f acc => match f with | .param v => v :: acc | .text _ => acc) []

/-- `Prisma.join`'s separator insertion: the fragment lists, separated. -/
def sqlIntercalate (sep : Sql) (l : List Sql) : Sql :=
  (l.intersperse sep).flatten

/-- `Prisma.join(values)` with its default `,` separator over plain
values; the sql-template-tag library throws on an empty array, modelled
by `none`. -/
def prismaJoinVals (values : List JsVal) : Option Sql :=
  if values.isEmpty then none
  else some (sqlIntercalate [.text ","] (values.map fun v => [.param v]))

/-! ### JavaScript string builtins

Structurally recursive models of the string builtins the source uses
(`split`, `trim`, `toLowerCase`, `slice`, `startsWith`, `join`,
`replace(/\s+/g, _)`), so that every definition evaluates by kernel
reduction.  All separators used by the source are single characters. -/

/-- A character matched by the JavaScript regex class `\s` (the common
ASCII cases; the claims only instantiate these). -/
def isJsWs (c : Char) : Bool :=
  c = ' ' || c = '\t' || c = '\n' || c = '\r' || c = '\x0b' || c = '\x0c'

/-- Split a character list at every occurrence of characters satisfying
`p` (JS `split` keeps empty pieces and yields one piece for `""`). -/
def splitCharsBy (p : Char → Bool) : List Char → List (List Char)
  | [] => [[]]
  | c :: cs =>
    match splitCharsBy p cs with
    | [] => [[]]
    | piece :: rest =>
      if p c then [] :: piece :: rest else (c :: piece) :: rest

/-- JS `s.split(sep)` for a one-character separator. -/
def jsSplitChar (sep : Char) (s : String) : List String :=
  (splitCharsBy (fun c => c = sep) s.data).map fun l => ⟨l⟩

/-- JS `s.split(/\s+/).filter(Boolean)` agrees with splitting at every
whitespace character and discarding the empty pieces. -/
def jsSplitWsNonEmpty (s : String) : List String :=
  ((splitCharsBy isJsWs s.data).map fun l => (⟨l⟩ : String)).filter fun w => w ≠ ""

/-- JS `s.trim()`. -/
def jsTrim (s : String) : String :=
  ⟨((s.data.dropWhile isJsWs).reverse.dropWhile isJsWs).reverse⟩

/-- JS `s.toLowerCase()` (ASCII case folding). -/
def jsToLower (s : String) : String :=
  ⟨s.data.map Char.toLower⟩

/-- JS `s.slice(n)` / the tail of a string. -/
def jsDrop (s : String) (n : Nat) : String :=
  ⟨s.data.drop n⟩

/-- JS `s.startsWith(pre)`. -/
def jsStartsWith (s : String) (pre : String) : Bool :=
  pre.data.isPrefixOf s.data

/-- JS `array.join(sep)`. -/
def jsJoin (sep : String) : List String → String
  | [] => ""
  | [x] => x
  | x :: y :: xs => x ++ sep ++ jsJoin sep (y :: xs)

/-- Helper of `jsWsReplace`: the flag records whether the previous
character was whitespace (i.e. we are inside a run). -/
def replaceWsRunsAux : Bool → List Char → List Char
  | _, [] => []
  | inRun, c :: cs =>
    if isJsWs c then
      if inRun then replaceWsRunsAux true cs
      else '_' :: replaceWsRunsAux true cs
    else c :: replaceWsRunsAux false cs

/-- JS `s.replace(/\s+/g, "_")`: every maximal whitespace run becomes a
single underscore. -/
def jsWsReplace (s : String) : String :=
  ⟨replaceWsRunsAux false s.data⟩

/-- The `FilterFieldType` union of the advanced-filter grammar. -/
inductive FilterFieldType where
  | string | enum | text | number | boolean | date
deriving DecidableEq, Repr

/-- A typed filter record (`Filter` of the advanced-filter types): the
operator is carried as its literal string, the value as a JS value. -/
structure Filter where
  name : String
  type : FilterFieldType
  operator : String
  value : JsVal

/-! ## Where-clause compiler (`advanced-index-query.server.ts`) -/

/-- `addStringFilter`: appends an equality/inequality conjunct for a
string field.  The field name goes through `Prisma.raw` (literal text),
the value is bound as a parameter. -/
def addStringFilter (whereClause : Sql) (field : String) (operator : String)
    (value : JsVal) : Sql :=
  if operator = "is" then
    whereClause ++ [.text " AND a.\"", .text field, .text "\" = ", .param value]
  else if operator = "isNot" then
    whereClause ++ [.text " AND a.\"", .text field, .text "\" != ", .param value]
  else whereClause

/-- `Array.isArray(value)`. -/
def jsIsArray : JsVal → Bool
  | .arr _ => true
  | _ => false

/-- The element list of an array value (`[]` for non-arrays; only used
behind an `Array.isArray` test). -/
def jsArrElems : JsVal → List JsVal
  | .arr l => l
  | _ => []

/-- JS `value[i]` (out-of-range reads give `undefined`). -/
def jsIndex (value : JsVal) (i : Nat) : JsVal :=
  (jsArrElems value).getD i .undefined

/-- `addEnumFilter`: `is`/`isNot`/`in` on an enum field.  The `in` case
calls `Prisma.join(value)` when the value is an array; `Prisma.join`
throws on an empty array (`none`). -/
def addEnumFilter (whereClause : Sql) (field : String) (operator : String)
    (value : JsVal) : Option Sql :=
  if operator = "is" then
    some (whereClause ++ [.text " AND a.\"", .text field, .text "\" = ", .param value])
  else if operator = "isNot" then
    some (whereClause ++ [.text " AND a.\"", .text field, .text "\" != ", .param value])
  else if operator = "in" then
    if jsIsArray value then
      (prismaJoinVals (jsArrElems value)).map fun joined =>
        whereClause ++ [.text " AND a.\"", .text field, .text "\" IN ("] ++ joined ++ [.text ")"]
    else some whereClause
  else some whereClause

/-- JavaScript string conversion, used where a `JsVal` is interpolated
into an ordinary template string.  Numbers stay symbolic (their source
string); no claim depends on numeric formatting. -/
def jsToString : JsVal → String
  | .str s => s
  | .num (.ofString s) => s
  | .num .ofUndefined => "NaN"
  | .bool b => if b then "true" else "false"
  | .arr l => jsJoin "," (l.map fun v =>
      match v with
      | .str s => s
      | .num (.ofString s) => s
      | .num .ofUndefined => "NaN"
      | .bool b => if b then "true" else "false"
      | _ => "")
  | .undefined => "undefined"

/-- `addTextFilter`: `contains` via `ILIKE` with a `%value%` parameter. -/
def addTextFilter (whereClause : Sql) (field : String) (operator : String)
    (value : JsVal) : Sql :=
  if operator = "contains" then
    whereClause ++ [.text " AND a.\"", .text field, .text "\" ILIKE ",
      .param (.str ("%" ++ jsToString value ++ "%"))]
  else whereClause

/-- `addNumberFilter`: comparison operators on a numeric field; `between`
requires an array value of exactly two elements. -/
def addNumberFilter (whereClause : Sql) (field : String) (operator : String)
    (value : JsVal) : Sql :=
  if operator = "is" then
    whereClause ++ [.text " AND a.\"", .text field, .text "\" = ", .param value]
  else if operator = "isNot" then
    whereClause ++ [.text " AND a.\"", .text field, .text "\" != ", .param value]
  else if operator = "gt" then
    whereClause ++ [.text " AND a.\"", .text field, .text "\" > ", .param value]
  else if operator = "lt" then
    whereClause ++ [.text " AND a.\"", .text field, .text "\" < ", .param value]
  else if operator = "gte" then
    whereClause ++ [.text " AND a.\"", .text field, .text "\" >= ", .param value]
  else if operator = "lte" then
    whereClause ++ [.text " AND a.\"", .text field, .text "\" <= ", .param value]
  else if operator = "between" then
    if jsIsArray value ∧ (jsArrElems value).length = 2 then
      whereClause ++ [.text " AND a.\"", .text field, .text "\" BETWEEN ",
        .param (jsIndex value 0), .text " AND ", .param (jsIndex value 1)]
    else whereClause
  else whereClause

/-- `addBooleanFilter`: unconditional equality conjunct (no operator
switch in the source). -/
def addBooleanFilter (whereClause : Sql) (field : String) (value : JsVal) : Sql :=
  whereClause ++ [.text " AND a.\"", .text field, .text "\" = ", .param value]

/-- `addDateFilter`: date comparisons; `is`/`isNot` wrap the column in
`DATE(...)`, `between` requires an array of exactly two elements. -/
def addDateFilter (whereClause : Sql) (field : String) (operator : String)
    (value : JsVal) : Sql :=
  if operator = "is" then
    whereClause ++ [.text " AND DATE(a.\"", .text field, .text "\") = ", .param value]
  else if operator = "isNot" then
    whereClause ++ [.text " AND DATE(a.\"", .text field, .text "\") != ", .param value]
  else if operator = "before" then
    whereClause ++ [.text " AND a.\"", .text field, .text "\" < ", .param value]
  else if operator = "after" then
    whereClause ++ [.text " AND a.\"", .text field, .text "\" > ", .param value]
  else if operator = "between" then
    if jsIsArray value ∧ (jsArrElems value).length = 2 then
      whereClause ++ [.text " AND a.\"", .text field, .text "\" BETWEEN ",
        .param (jsIndex value 0), .text " AND ", .param (jsIndex value 1)]
    else whereClause
  else whereClause

/-- The body of the `filters.forEach` loop of `generateWhereClause`: one
filter is dispatched on its `type` to the matching `add*Filter`.  Only
the enum path can throw (via `Prisma.join([])`). -/
def applyFilter (whereClause : Sql) (filter : Filter) : Option Sql :=
  match filter.type with
  | .string => some (addStringFilter whereClause filter.name filter.operator filter.value)
  | .enum => addEnumFilter whereClause filter.name filter.operator filter.value
  | .text => some (addTextFilter whereClause filter.name filter.operator filter.value)
  | .number => some (addNumberFilter whereClause filter.name filter.operator filter.value)
  | .boolean => some (addBooleanFilter whereClause filter.name filter.value)
  | .date => some (addDateFilter whereClause filter.name filter.operator filter.value)

/-- `search.trim().split(/\s+/).filter(Boolean)`:  the non-empty
whitespace-separated words of the trimmed search string. -/
def jsWords (search : String) : List String :=
  jsSplitWsNonEmpty (jsTrim search)

/-- The search conjunct's bound parameter:
`words.map(word => `${word}:* | ${word}`).join(" | ")`. -/
def searchQueryOf (words : List String) : String :=
  jsJoin " | " (words.map fun word => word ++ ":* | " ++ word)

/-- The initial `whereClause` of `generateWhereClause`, before any filter
is processed: the organization conjunct, extended with the full-text
search conjunct when a non-empty search with at least one word is given
(JS `if (search)` treats `null` and `""` as falsy). -/
def baseWhere (organizationId : String) (search : Option String) : Sql :=
  let base : Sql := [.text "WHERE a.\"organizationId\" = ", .param (.str organizationId)]
  match search with
  | none => base
  | some s =>
    if s = "" then base
    else
      let words := jsWords s
      if words.length > 0 then
        [Frag.text "\n        "] ++ base ++
          [.text " AND (\n          to_tsvector('english', a.\"title\" || ' ' || COALESCE(a.\"description\", '')) @@ to_tsquery('english', ",
           .param (.str (searchQueryOf words)),
           .text ")\n        )\n      "]
      else base

/-- `generateWhereClause(organizationId, search, filters)`: starts from
the base clause and folds every filter through `applyFilter`, left to
right (`none` models a thrown `TypeError` from `Prisma.join([])`). -/
def generateWhereClause (organizationId : String) (search : Option String)
    (filters : List Filter) : Option Sql :=
  filters.foldlM applyFilter (baseWhere organizationId search)

/-! ## Sort compiler (`advanced-index-query.server.ts`, part 2) -/

/-- Interpolating a possibly-`undefined` string into a JS template
string: `undefined` prints as `"undefined"`. -/
def jsStrOpt : Option String → String
  | some s => s
  | none => "undefined"

/-- A possibly-`undefined` string as a JS runtime value. -/
def jsValOfOpt : Option String → JsVal
  | some s => .str s
  | none => .undefined

/-- The `directAssetFields` alias table (asset column → aliased select
column of the asset query fragment). -/
def directAssetFields : List (String × String) :=
  [("id", "assetId"), ("name", "assetTitle"), ("valuation", "assetValue"),
   ("status", "assetStatus"), ("description", "assetDescription"),
   ("createdAt", "assetCreatedAt"), ("availableToBook", "assetAvailableToBook")]

/-- The property keys every plain JS object literal inherits from
`Object.prototype` (ECMA-262, including the Annex-B accessors): the JS
`in` operator consults the prototype chain, so these names also pass
`field.name in directAssetFields`. -/
def protoKeys : List String :=
  ["constructor", "hasOwnProperty", "isPrototypeOf", "propertyIsEnumerable",
   "toLocaleString", "toString", "valueOf", "__proto__",
   "__defineGetter__", "__defineSetter__", "__lookupGetter__", "__lookupSetter__"]

/-- The JS string conversion of the `Object.prototype` member inherited
under key `k` (what `directAssetFields[k]` stringifies to in a template
for a prototype key).  Its exact text is host-defined (V8 prints e.g. a
`function toString() ...` source for the methods and an object tag for
`__proto__`), so the model keeps it symbolic; no theorem depends on the
text, only on the absent warning and the changed clause. -/
def protoMemberStr (k : String) : String :=
  "[Object.prototype member " ++ k ++ "]"

/-- The JS test `field.name in directAssetFields`: an own key of the
seven-entry table or any key inherited from `Object.prototype`. -/
def jsInDirectAssetFields (k : String) : Bool :=
  (directAssetFields.lookup k).isSome || protoKeys.contains k

/-- The JS property read `directAssetFields[field.name]`, stringified as
the template interpolation does: an own key yields its alias column, a
prototype key yields the inherited member's string conversion. -/
def directAssetFieldsGet (k : String) : String :=
  match directAssetFields.lookup k with
  | some columnName => columnName
  | none => protoMemberStr k

/-- One parsed `sortBy` entry: `const [name, direction, fieldType] =
s.split(":")` (missing components are `undefined`). -/
structure SortField where
  name : String
  direction : Option String
  fieldType : Option String
deriving DecidableEq, Repr

/-- `sortBy.map(...)`: split each entry on `":"` into its components. -/
def parseSortField (s : String) : SortField :=
  let parts := jsSplitChar ':' s
  ⟨parts.getD 0 "", parts[1]?, parts[2]?⟩

/-- A custom-field sorting record (`CustomFieldSorting`): the `fieldType`
is whatever string the entry carried (or `undefined`). -/
structure CustomFieldSorting where
  name : String
  valueKey : String
  aliasName : String
  fieldType : Option String
deriving DecidableEq, Repr

/-- The body of the `for (const field of fields)` loop of
`parseSortingOptions`: pushes onto `orderByParts`, `customFieldSortings`
or the warning log (`console.warn`).  The first test is the JS `in`
operator, which also accepts the `Object.prototype` keys — for those the
indexed read yields the inherited member, stringified into the part. -/
def sortFieldStep (acc : List String × List CustomFieldSorting × List String)
    (field : SortField) : List String × List CustomFieldSorting × List String :=
  if jsInDirectAssetFields field.name then
    (acc.1 ++ ["\"" ++ directAssetFieldsGet field.name ++ "\" " ++ jsStrOpt field.direction],
     acc.2.1, acc.2.2)
  else
    if field.name = "kit" then
      (acc.1 ++ ["\"kitName\" " ++ jsStrOpt field.direction], acc.2.1, acc.2.2)
    else if field.name = "category" then
      (acc.1 ++ ["\"categoryName\" " ++ jsStrOpt field.direction], acc.2.1, acc.2.2)
    else if field.name = "location" then
      (acc.1 ++ ["\"locationName\" " ++ jsStrOpt field.direction], acc.2.1, acc.2.2)
    else if field.name = "custody" then
      (acc.1 ++ ["custody->>'name' " ++ jsStrOpt field.direction], acc.2.1, acc.2.2)
    else if jsStartsWith field.name "cf_" then
      let customFieldName := jsDrop field.name 3
      let aliasName := "cf_" ++ jsWsReplace customFieldName
      (acc.1 ++ [aliasName ++ " " ++ jsStrOpt field.direction],
       acc.2.1 ++ [⟨customFieldName, "raw", aliasName, field.fieldType⟩],
       acc.2.2)
    else
      (acc.1, acc.2.1, acc.2.2 ++ ["Unknown sort field: " ++ field.name])

/-- The result of `parseSortingOptions`, with the `console.warn` calls it
made collected in `warnings`. -/
structure SortingResult where
  orderByClause : String
  customFieldSortings : List CustomFieldSorting
  warnings : List String
deriving DecidableEq, Repr

/-- `parseSortingOptions(sortBy)`: parse each entry, run the loop, then
join the collected parts into the `ORDER BY` clause (empty string when
no entry produced a part). -/
def parseSortingOptions (sortBy : List String) : SortingResult :=
  let fields := sortBy.map parseSortField
  let acc := fields.foldl sortFieldStep ([], [], [])
  let orderByClause :=
    if acc.1.length > 0 then "ORDER BY " ++ jsJoin ", " acc.1 else ""
  ⟨orderByClause, acc.2.1, acc.2.2⟩

/-- The correlated subquery built for one custom-field sorting record
(the lambda inside `generateCustomFieldSelect`): the `CASE` scrutinee and
the custom-field name are bound parameters, the alias is `Prisma.raw`. -/
def cfSubquery (cf : CustomFieldSorting) : Sql :=
  [.text "(\n      SELECT \n        CASE ",
   .param (jsValOfOpt cf.fieldType),
   .text "\n          WHEN 'DATE' THEN \n            (acfv.value->>'valueDate')::timestamp::text\n          WHEN 'NUMBER' THEN \n            (acfv.value->>'raw')::numeric::text\n          WHEN 'BOOLEAN' THEN \n            (acfv.value->>'valueBoolean')::boolean::text\n          ELSE\n            acfv.value->>'raw'\n        END\n      FROM public.\"AssetCustomFieldValue\" acfv\n      JOIN public.\"CustomField\" cf ON acfv.\"customFieldId\" = cf.id\n      WHERE acfv.\"assetId\" = a.id AND cf.name = ",
   .param (.str cf.name),
   .text "\n    ) AS ",
   .text cf.aliasName]

/-- `generateCustomFieldSelect(customFieldSortings)`: `Prisma.empty` for
an empty list, otherwise `, ` followed by the `Prisma.join` of one
subquery per record (the guard keeps `Prisma.join` off the empty array). -/
def generateCustomFieldSelect (customFieldSortings : List CustomFieldSorting) : Sql :=
  if customFieldSortings.isEmpty then []
  else [.text ", "] ++ sqlIntercalate [.text ","] (customFieldSortings.map cfSubquery)

/-! ## Filter parser (`utils.server.ts`) -/

/-- `getFilterFieldType`: the fixed field-name → filter-type table. -/
def getFilterFieldType (fieldName : String) : FilterFieldType :=
  if fieldName = "id" then .string
  else if fieldName = "status" then .enum
  else if fieldName = "description" then .text
  else if fieldName = "valuation" then .number
  else if fieldName = "availableToBook" then .boolean
  else if fieldName = "createdAt" then .date
  else .string

/-- `parseFilterValue(field, operator, value)`.  `value` is `Option`
because the destructuring `const [operator, filterValue] = value.split(":")`
leaves `filterValue` `undefined` when the parameter value has no `":"`.
The result is `none` exactly when the JS code throws a `TypeError`
(calling `.split`/`.toLowerCase` on `undefined`). -/
def parseFilterValue (field : String) (operator : String)
    (value : Option String) : Option JsVal :=
  if field = "valuation" then
    if operator = "between" then
      value.map fun v => .arr ((jsSplitChar ',' v).map fun s => .num (.ofString s))
    else
      some (.num (match value with | some v => .ofString v | none => .ofUndefined))
  else if field = "availableToBook" then
    value.map fun v => .bool (jsToLower v == "true")
  else if field = "createdAt" then
    if operator = "between" then
      value.map fun v => .arr ((jsSplitChar ',' v).map JsVal.str)
    else some (jsValOfOpt value)
  else if field = "status" then
    if operator = "in" then
      value.map fun v => .arr ((jsSplitChar ',' v).map JsVal.str)
    else some (jsValOfOpt value)
  else some (jsValOfOpt value)

/-- The body of the `searchParams.forEach` loop of `parseFilters`: one
decoded key/value pair becomes one `Filter` (or `none` when
`parseFilterValue` throws). -/
def filterOfParam (key : String) (value : String) : Option Filter :=
  let parts := jsSplitChar ':' value
  let operator := parts.getD 0 ""
  (parseFilterValue key operator parts[1]?).map fun v =>
    ⟨key, getFilterFieldType key, operator, v⟩

/-- `parseFilters(filtersString)` from the point where `URLSearchParams`
(an external builtin) has decoded the string into its ordered key/value
pairs: each pair yields one filter; a thrown `TypeError` aborts the
whole call (`none`). -/
def parseFilters (params : List (String × String)) : Option (List Filter) :=
  params.mapM fun p => filterOfParam p.1 p.2

/-! ## `getAssetsWhereInput` (`utils.server.ts`)

The Prisma `AssetWhereInput` object is modelled as a JSON-like value;
JS property assignment `where.x = v` is `objSet` (insertion order
preserved, existing key overwritten in place). -/

/-- A JSON-like JavaScript object value. -/
inductive JVal where
  | null : JVal
  | str : String → JVal
  | arr : List JVal → JVal
  | obj : List (String × JVal) → JVal

/-- Set a key in a field list: overwrite in place, else append. -/
def setField : List (String × JVal) → String → JVal → List (String × JVal)
  | [], k, v => [(k, v)]
  | (k', v') :: rest, k, v =>
    if k' = k then (k, v) :: rest else (k', v') :: setField rest k v

/-- JS property assignment on an object. -/
def objSet (o : JVal) (k : String) (v : JVal) : JVal :=
  match o with
  | .obj fs => .obj (setField fs k v)
  | o => o

/-- JS property read on an object (`undefined` is `none`). -/
def objGet (o : JVal) (k : String) : Option JVal :=
  match o with
  | .obj fs => fs.lookup k
  | _ => none

/-- `where.OR ?? []`: the current `OR` alternatives, defaulting to the
empty array. -/
def orElems (w : JVal) : List JVal :=
  match objGet w "OR" with
  | some (.arr l) => l
  | _ => []

/-- An array of id strings, as used in the `{ in: ids }` conditions. -/
def strArr (l : List String) : JVal := .arr (l.map .str)

/-- The decoded values of the current search params that
`getAssetsWhereInput` destructures (`getParamsValues` and
`searchParams.get("status")` are external decoding collaborators). -/
structure ParamsValues where
  categoriesIds : List String
  locationIds : List String
  tagsIds : List String
  search : Option String
  teamMemberIds : List String
  status : Option String

/-- The `if (search)` block: case-folded, trimmed title search. -/
def applySearch (w : JVal) (search : Option String) : JVal :=
  match search with
  | some s =>
    if s ≠ "" then
      objSet w "title"
        (.obj [("contains", .str (jsTrim (jsToLower s))), ("mode", .str "insensitive")])
    else w
  | none => w

/-- The `if (status)` block (after the `"ALL"` check nulled it out). -/
def applyStatus (w : JVal) (status : Option String) : JVal :=
  match status with
  | some st => if st ≠ "" then objSet w "status" (.str st) else w
  | none => w

/-- The two alternatives of the `uncategorized` branch. -/
def catAlternatives (categoriesIds : List String) : List JVal :=
  [.obj [("categoryId", .obj [("in", strArr categoriesIds)])],
   .obj [("categoryId", .null)]]

/-- The `categoriesIds` block: the `uncategorized` branch assigns
`where.OR` outright (no spread of a previous `OR`). -/
def applyCategories (w : JVal) (categoriesIds : List String) : JVal :=
  if categoriesIds.length > 0 then
    if categoriesIds.contains "uncategorized" then
      objSet w "OR" (.arr (catAlternatives categoriesIds))
    else
      objSet w "categoryId" (.obj [("in", strArr categoriesIds)])
  else w

/-- The two alternatives of the `untagged` branch. -/
def tagAlternatives (tagsIds : List String) : List JVal :=
  [.obj [("tags", .obj [("some", .obj [("id", .obj [("in", strArr tagsIds)])])])],
   .obj [("tags", .obj [("none", .obj [])])]]

/-- The `tagsIds` block: the `untagged` branch spreads `where.OR ?? []`. -/
def applyTags (w : JVal) (tagsIds : List String) : JVal :=
  if tagsIds.length > 0 then
    if tagsIds.contains "untagged" then
      objSet w "OR" (.arr (orElems w ++ tagAlternatives tagsIds))
    else
      objSet w "tags" (.obj [("some", .obj [("id", .obj [("in", strArr tagsIds)])])])
  else w

/-- The two alternatives of the `without-location` branch. -/
def locAlternatives (locationIds : List String) : List JVal :=
  [.obj [("locationId", .obj [("in", strArr locationIds)])],
   .obj [("locationId", .null)]]

/-- The `locationIds` block. -/
def applyLocations (w : JVal) (locationIds : List String) : JVal :=
  if locationIds.length > 0 then
    if locationIds.contains "without-location" then
      objSet w "OR" (.arr (orElems w ++ locAlternatives locationIds))
    else
      objSet w "location" (.obj [("id", .obj [("in", strArr locationIds)])])
  else w

/-- The custody/booking alternatives of the `teamMemberIds` block. -/
def custodyAlternatives (teamMemberIds : List String) : List JVal :=
  [.obj [("custody", .obj [("teamMemberId", .obj [("in", strArr teamMemberIds)])])],
   .obj [("custody", .obj [("custodian", .obj [("userId", .obj [("in", strArr teamMemberIds)])])])],
   .obj [("bookings", .obj [("some", .obj [("custodianTeamMemberId", .obj [("in", strArr teamMemberIds)])])])],
   .obj [("bookings", .obj [("some", .obj [("custodianUserId", .obj [("in", strArr teamMemberIds)])])])]]
  ++ (if teamMemberIds.contains "without-custody"
      then [.obj [("custody", .null)]] else [])

/-- The `teamMemberIds` block: spreads `where.OR ?? []`. -/
def applyTeamMembers (w : JVal) (teamMemberIds : List String) : JVal :=
  if teamMemberIds.length > 0 then
    objSet w "OR" (.arr (orElems w ++ custodyAlternatives teamMemberIds))
  else w

/-- `getAssetsWhereInput({organizationId, currentSearchParams})`: `none`
search params hit the early return; otherwise the blocks run in source
order over the decoded parameter values. -/
def getAssetsWhereInput (organizationId : String)
    (params : Option ParamsValues) : JVal :=
  let w : JVal := .obj [("organizationId", .str organizationId)]
  match params with
  | none => w
  | some p =>
    let status := if p.status = some "ALL" then none else p.status
    let w := applySearch w p.search
    let w := applyStatus w status
    let w := applyCategories w p.categoriesIds
    let w := applyTags w p.tagsIds
    let w := applyLocations w p.locationIds
    let w := applyTeamMembers w p.teamMemberIds
    w

/-! ## Derived structure of the where-clause compiler -/

/-- The conjunct a single filter contributes: what its `add*Filter`
appends to an empty clause (`none` when `Prisma.join([])` throws). -/
def filterConj (f : Filter) : Option Sql :=
  applyFilter [] f

theorem addStringFilter_append (wc : Sql) (n op : String) (v : JsVal) :
    addStringFilter wc n op v = wc ++ addStringFilter [] n op v := by
  unfold addStringFilter
  split_ifs <;> simp

theorem addTextFilter_append (wc : Sql) (n op : String) (v : JsVal) :
    addTextFilter wc n op v = wc ++ addTextFilter [] n op v := by
  unfold addTextFilter
  split_ifs <;> simp

theorem addNumberFilter_append (wc : Sql) (n op : String) (v : JsVal) :
    addNumberFilter wc n op v = wc ++ addNumberFilter [] n op v := by
  unfold addNumberFilter
  split_ifs <;> simp

theorem addDateFilter_append (wc : Sql) (n op : String) (v : JsVal) :
    addDateFilter wc n op v = wc ++ addDateFilter [] n op v := by
  unfold addDateFilter
  split_ifs <;> simp

theorem addBooleanFilter_append (wc : Sql) (n : String) (v : JsVal) :
    addBooleanFilter wc n v = wc ++ addBooleanFilter [] n v := by
  simp [addBooleanFilter]

theorem addEnumFilter_append (wc : Sql) (n op : String) (v : JsVal) :
    addEnumFilter wc n op v = (addEnumFilter [] n op v).map (wc ++ ·) := by
  unfold addEnumFilter
  split_ifs <;> try simp
  cases h : prismaJoinVals (jsArrElems v) <;> simp [h]

/-- Every filter acts by appending its own conjunct to the clause. -/
theorem applyFilter_eq (wc : Sql) (f : Filter) :
    applyFilter wc f = (filterConj f).map (wc ++ ·) := by
  obtain ⟨n, t, op, v⟩ := f
  cases t with
  | string => exact congrArg some (addStringFilter_append wc n op v)
  | enum => exact addEnumFilter_append wc n op v
  | text => exact congrArg some (addTextFilter_append wc n op v)
  | number => exact congrArg some (addNumberFilter_append wc n op v)
  | boolean => exact congrArg some (addBooleanFilter_append wc n v)
  | date => exact congrArg some (addDateFilter_append wc n op v)

theorem foldlM_filters_append (fs gs : List Filter) (wc : Sql) :
    (fs ++ gs).foldlM applyFilter wc =
      (fs.foldlM applyFilter wc).bind fun wc' => gs.foldlM applyFilter wc' := by
  induction fs generalizing wc with
  | nil => simp [List.foldlM]
  | cons f fs ih =>
    simp only [List.cons_append, List.foldlM_cons]
    cases applyFilter wc f <;> simp [ih]

theorem textOf_append (a b : Sql) : textOf (a ++ b) = textOf a ++ textOf b := by
  induction a with
  | nil => simp [textOf]
  | cons f t ih => cases f <;> simp [textOf, ih] <;> simp [textOf] at ih <;>
      simp [ih, String.append_assoc]

theorem paramsOf_append (a b : Sql) : paramsOf (a ++ b) = paramsOf a ++ paramsOf b := by
  induction a with
  | nil => simp [paramsOf]
  | cons f t ih => cases f <;> simp [paramsOf] at ih ⊢ <;> simp [ih]

/-! ## Parameterization: the raw SQL text is independent of the bound
values (organization id, search string content, filter values). -/

/-- The shape of a filter value: the compiler's branch structure only
inspects whether the value is an array and how long it is. -/
inductive ValShape where
  | scalar : ValShape
  | arrOf : Nat → ValShape
deriving DecidableEq, Repr

def valShape : JsVal → ValShape
  | .arr l => .arrOf l.length
  | _ => .scalar

/-- Everything about a filter except its value's content. -/
structure FilterShape where
  name : String
  type : FilterFieldType
  operator : String
  shape : ValShape
deriving DecidableEq, Repr

def filterShape (f : Filter) : FilterShape :=
  ⟨f.name, f.type, f.operator, valShape f.value⟩

theorem valShape_arr_facts {v v' : JsVal} (hv : valShape v = valShape v') :
    jsIsArray v = jsIsArray v' ∧ (jsArrElems v).length = (jsArrElems v').length := by
  cases v <;> cases v' <;> simp_all [valShape, jsIsArray, jsArrElems]

theorem sqlIntercalate_cons_cons (sep x y : Sql) (t : List Sql) :
    sqlIntercalate sep (x :: y :: t) = x ++ sep ++ sqlIntercalate sep (y :: t) := by
  simp [sqlIntercalate, List.intersperse_cons_cons]

theorem textOf_paramsJoin (l l' : List JsVal) (h : l.length = l'.length) :
    textOf (sqlIntercalate [.text ","] (l.map fun v => [.param v])) =
    textOf (sqlIntercalate [.text ","] (l'.map fun v => [.param v])) := by
  induction l generalizing l' with
  | nil => cases l' with
    | nil => rfl
    | cons b t => simp at h
  | cons a t ih =>
    cases l' with
    | nil => simp at h
    | cons b t' =>
      cases t with
      | nil =>
        cases t' with
        | nil => rfl
        | cons c u => simp at h
      | cons c u =>
        cases t' with
        | nil => simp at h
        | cons d u' =>
          have hlen : (c :: u).length = (d :: u').length := by simpa using h
          have hrec := ih _ hlen
          simp only [List.map_cons] at hrec ⊢
          rw [sqlIntercalate_cons_cons, sqlIntercalate_cons_cons]
          simp only [textOf_append, hrec]
          rfl

theorem textOf_prismaJoinVals {l l' : List JsVal} (h : l.length = l'.length) :
    (prismaJoinVals l).map textOf = (prismaJoinVals l').map textOf := by
  cases l with
  | nil => cases l' with
    | nil => rfl
    | cons b t' => simp at h
  | cons a t =>
    cases l' with
    | nil => simp at h
    | cons b t' => exact congrArg some (textOf_paramsJoin _ _ h)

theorem textOf_addStringFilter (n op : String) (v v' : JsVal) :
    textOf (addStringFilter [] n op v) = textOf (addStringFilter [] n op v') := by
  unfold addStringFilter
  split_ifs <;> rfl

theorem textOf_addTextFilter (n op : String) (v v' : JsVal) :
    textOf (addTextFilter [] n op v) = textOf (addTextFilter [] n op v') := by
  unfold addTextFilter
  split_ifs <;> rfl

theorem textOf_addBooleanFilter (n : String) (v v' : JsVal) :
    textOf (addBooleanFilter [] n v) = textOf (addBooleanFilter [] n v') := by
  rfl

theorem textOf_addNumberFilter (n op : String) {v v' : JsVal}
    (hv : valShape v = valShape v') :
    textOf (addNumberFilter [] n op v) = textOf (addNumberFilter [] n op v') := by
  obtain ⟨hA, hL⟩ := valShape_arr_facts hv
  unfold addNumberFilter
  split_ifs <;> first
    | rfl
    | (exfalso; simp_all)

theorem textOf_addDateFilter (n op : String) {v v' : JsVal}
    (hv : valShape v = valShape v') :
    textOf (addDateFilter [] n op v) = textOf (addDateFilter [] n op v') := by
  obtain ⟨hA, hL⟩ := valShape_arr_facts hv
  unfold addDateFilter
  split_ifs <;> first
    | rfl
    | (exfalso; simp_all)

theorem textOf_addEnumFilter (n op : String) {v v' : JsVal}
    (hv : valShape v = valShape v') :
    (addEnumFilter [] n op v).map textOf = (addEnumFilter [] n op v').map textOf := by
  obtain ⟨hA, hL⟩ := valShape_arr_facts hv
  unfold addEnumFilter
  split_ifs <;> try rfl
  · have hrec := textOf_prismaJoinVals hL
    cases hj : prismaJoinVals (jsArrElems v) with
    | none =>
      cases hj' : prismaJoinVals (jsArrElems v') with
      | none => simp
      | some j' => rw [hj, hj'] at hrec; simp at hrec
    | some j =>
      cases hj' : prismaJoinVals (jsArrElems v') with
      | none => rw [hj, hj'] at hrec; simp at hrec
      | some j' =>
        rw [hj, hj'] at hrec
        simp only [Option.map_some', Option.some.injEq] at hrec
        simp only [Option.map_some', Option.some.injEq, List.nil_append,
          textOf_append, hrec]
  · simp_all
  · simp_all

/-- Filters of equal shape contribute conjuncts with identical raw SQL
text (their values appear only as bound parameters). -/
theorem filterConj_textOf_congr (f f' : Filter) (h : filterShape f = filterShape f') :
    (filterConj f).map textOf = (filterConj f').map textOf := by
  obtain ⟨n, t, op, v⟩ := f
  obtain ⟨n', t', op', v'⟩ := f'
  simp only [filterShape, FilterShape.mk.injEq] at h
  obtain ⟨hn, ht, hop, hv⟩ := h
  subst hn; subst ht; subst hop
  cases t with
  | string => exact congrArg some (textOf_addStringFilter n op v v')
  | enum => exact textOf_addEnumFilter n op hv
  | text => exact congrArg some (textOf_addTextFilter n op v v')
  | number => exact congrArg some (textOf_addNumberFilter n op hv)
  | boolean => exact congrArg some (textOf_addBooleanFilter n v v')
  | date => exact congrArg some (textOf_addDateFilter n op hv)

/-- Whether `generateWhereClause` adds the full-text search conjunct: a
non-empty search string containing at least one word (the conditions of
the two guards in the source, in order). -/
def searchActive : Option String → Bool
  | none => false
  | some s => if s = "" then false else if (jsWords s).length > 0 then true else false

theorem textOf_baseWhere_inactive (org : String) (s : Option String)
    (h : searchActive s = false) :
    textOf (baseWhere org s) = "WHERE a.\"organizationId\" = " := by
  cases s with
  | none => rfl
  | some b =>
    unfold searchActive at h
    dsimp only at h
    unfold baseWhere
    dsimp only
    split_ifs with hb hw
    · rfl
    · rw [if_neg hb, if_pos hw] at h
      exact absurd h (by simp)
    · rfl

theorem textOf_baseWhere_active (org : String) (s : Option String)
    (h : searchActive s = true) :
    textOf (baseWhere org s)
      = "\n        WHERE a.\"organizationId\" =  AND (\n          to_tsvector('english', a.\"title\" || ' ' || COALESCE(a.\"description\", '')) @@ to_tsquery('english', )\n        )\n      " := by
  cases s with
  | none => simp [searchActive] at h
  | some b =>
    unfold searchActive at h
    dsimp only at h
    unfold baseWhere
    dsimp only
    split_ifs with hb hw
    · rw [if_pos hb] at h
      exact absurd h (by simp)
    · rfl
    · rw [if_neg hb, if_neg hw] at h
      exact absurd h (by simp)

/-- The raw SQL text of the base clause depends neither on the
organization id nor on the content of the search string — only on
whether an active search is present at all. -/
theorem textOf_baseWhere (org org' : String) (s s' : Option String)
    (hs : searchActive s = searchActive s') :
    textOf (baseWhere org s) = textOf (baseWhere org' s') := by
  cases hA : searchActive s with
  | false => rw [textOf_baseWhere_inactive org s hA, textOf_baseWhere_inactive org' s' (hs ▸ hA)]
  | true => rw [textOf_baseWhere_active org s hA, textOf_baseWhere_active org' s' (hs ▸ hA)]

/-- Folding shape-equal filter lists over clauses of equal text yields
clauses of equal text (and fails identically). -/
theorem foldl_textOf_congr (fs fs' : List Filter) (wc wc' : Sql)
    (hw : textOf wc = textOf wc')
    (h : fs.map filterShape = fs'.map filterShape) :
    (fs.foldlM applyFilter wc).map textOf = (fs'.foldlM applyFilter wc').map textOf := by
  induction fs generalizing fs' wc wc' with
  | nil =>
    cases fs' with
    | nil => simpa [List.foldlM] using congrArg some hw
    | cons g t => simp at h
  | cons f t ih =>
    cases fs' with
    | nil => simp at h
    | cons f' t' =>
      simp only [List.map_cons, List.cons.injEq] at h
      obtain ⟨hf, ht⟩ := h
      simp only [List.foldlM_cons]
      rw [applyFilter_eq, applyFilter_eq]
      have hc := filterConj_textOf_congr f f' hf
      cases hcv : filterConj f with
      | none =>
        cases hcv' : filterConj f' with
        | none => simp
        | some c' => rw [hcv, hcv'] at hc; simp at hc
      | some c =>
        cases hcv' : filterConj f' with
        | none => rw [hcv, hcv'] at hc; simp at hc
        | some c' =>
          rw [hcv, hcv'] at hc
          simp only [Option.map_some', Option.some.injEq] at hc
          simp only [Option.map_some', Option.some_bind]
          exact ih t' _ _ (by rw [textOf_append, textOf_append, hw, hc]) ht

/-! ## The operator tables of the per-type switches -/

/-- The operator case labels of each `add*Filter` switch, in source
order (the boolean filter has no operator switch: its single case is
unconditional). -/
def handledOperators : FilterFieldType → List String
  | .string => ["is", "isNot"]
  | .enum => ["is", "isNot", "in"]
  | .text => ["contains"]
  | .number => ["is", "isNot", "gt", "lt", "gte", "lte", "between"]
  | .boolean => []
  | .date => ["is", "isNot", "before", "after", "between"]

/-- The number of branching rules of a filter type's compiler: its
labelled operator cases plus the default case. -/
def numBranchRules (t : FilterFieldType) : Nat :=
  (handledOperators t).length + 1

/-- An operator that reaches the default case of its type's switch
leaves the clause unchanged (boolean has no switch to fall out of). -/
theorem applyFilter_default (wc : Sql) (f : Filter)
    (hb : f.type ≠ FilterFieldType.boolean)
    (h : f.operator ∉ handledOperators f.type) :
    applyFilter wc f = some wc := by
  obtain ⟨n, t, op, v⟩ := f
  cases t with
  | string =>
    simp [handledOperators] at h
    simp [applyFilter, addStringFilter, h]
  | enum =>
    simp [handledOperators] at h
    simp [applyFilter, addEnumFilter, h]
  | text =>
    simp [handledOperators] at h
    simp [applyFilter, addTextFilter, h]
  | number =>
    simp [handledOperators] at h
    simp [applyFilter, addNumberFilter, h]
  | boolean => exact absurd rfl hb
  | date =>
    simp [handledOperators] at h
    simp [applyFilter, addDateFilter, h]

theorem startsWith_and_field : jsStartsWith " AND a.\"" " AND " = true := by decide

theorem startsWith_and_date : jsStartsWith " AND DATE(a.\"" " AND " = true := by decide

/-- Every successful filter application either leaves the clause
unchanged or appends one conjunct that begins with `" AND "`. -/
theorem applyFilter_conjunct (wc : Sql) (f : Filter) (r : Sql)
    (h : applyFilter wc f = some r) :
    r = wc ∨ ∃ s rest, r = wc ++ (Frag.text s :: rest) ∧ jsStartsWith s " AND " = true := by
  rw [applyFilter_eq] at h
  cases hc : filterConj f with
  | none => rw [hc] at h; simp at h
  | some c =>
    rw [hc] at h
    simp only [Option.map_some', Option.some.injEq] at h
    subst h
    obtain ⟨n, t, op, v⟩ := f
    cases t with
    | string =>
      simp only [filterConj, applyFilter, addStringFilter, Option.some.injEq] at hc
      split_ifs at hc <;> subst hc
      · exact Or.inr ⟨_, _, rfl, startsWith_and_field⟩
      · exact Or.inr ⟨_, _, rfl, startsWith_and_field⟩
      · simp
    | enum =>
      simp only [filterConj, applyFilter, addEnumFilter] at hc
      split_ifs at hc
      · simp only [Option.some.injEq] at hc
        subst hc
        exact Or.inr ⟨_, _, rfl, startsWith_and_field⟩
      · simp only [Option.some.injEq] at hc
        subst hc
        exact Or.inr ⟨_, _, rfl, startsWith_and_field⟩
      · cases hj : prismaJoinVals (jsArrElems v) with
        | none => rw [hj] at hc; simp at hc
        | some j =>
          rw [hj] at hc
          simp only [Option.map_some', Option.some.injEq] at hc
          subst hc
          refine Or.inr ⟨" AND a.\"",
            Frag.text n :: Frag.text "\" IN (" :: (j ++ [Frag.text ")"]), by simp,
            startsWith_and_field⟩
      · simp only [Option.some.injEq] at hc
        subst hc
        simp
      · simp only [Option.some.injEq] at hc
        subst hc
        simp
    | text =>
      simp only [filterConj, applyFilter, addTextFilter, Option.some.injEq] at hc
      split_ifs at hc <;> subst hc
      · exact Or.inr ⟨_, _, rfl, startsWith_and_field⟩
      · simp
    | number =>
      simp only [filterConj, applyFilter, addNumberFilter, Option.some.injEq] at hc
      split_ifs at hc <;> subst hc <;>
        first
          | exact Or.inr ⟨_, _, rfl, startsWith_and_field⟩
          | simp
    | boolean =>
      simp only [filterConj, applyFilter, addBooleanFilter, Option.some.injEq] at hc
      subst hc
      exact Or.inr ⟨_, _, rfl, startsWith_and_field⟩
    | date =>
      simp only [filterConj, applyFilter, addDateFilter, Option.some.injEq] at hc
      split_ifs at hc <;> subst hc <;>
        first
          | exact Or.inr ⟨_, _, rfl, startsWith_and_field⟩
          | exact Or.inr ⟨_, _, rfl, startsWith_and_date⟩
          | simp

/-- The malformed-filter conditions of claim C10: default-case operator,
`between` without a two-element array, or `in` without an array. -/
def malformedFilter (f : Filter) : Prop :=
  (f.type ≠ FilterFieldType.boolean ∧ f.operator ∉ handledOperators f.type)
  ∨ (f.operator = "between"
      ∧ (f.type = FilterFieldType.number ∨ f.type = FilterFieldType.date)
      ∧ ¬(jsIsArray f.value = true ∧ (jsArrElems f.value).length = 2))
  ∨ (f.operator = "in" ∧ f.type = FilterFieldType.enum ∧ jsIsArray f.value = false)

/-- A malformed filter is a no-op on the clause. -/
theorem applyFilter_malformed (wc : Sql) (f : Filter) (h : malformedFilter f) :
    applyFilter wc f = some wc := by
  rcases h with ⟨hb, hop⟩ | ⟨hop, ht, hval⟩ | ⟨hop, ht, hval⟩
  · exact applyFilter_default wc f hb hop
  · obtain ⟨n, t, op, v⟩ := f
    rcases ht with ht | ht <;> subst ht <;> simp only at hop hval <;> subst hop
    · simp [applyFilter, addNumberFilter, hval]
    · simp [applyFilter, addDateFilter, hval]
  · obtain ⟨n, t, op, v⟩ := f
    simp only at hop ht hval
    subst hop; subst ht
    simp [applyFilter, addEnumFilter, hval]

/-! ## Derived structure of the sort compiler -/

/-- The `ORDER BY` part contributed by one parsed sort entry (`none`
when the entry is unknown and only warned about). -/
def sortPartOf (field : SortField) : Option String :=
  if jsInDirectAssetFields field.name then
    some ("\"" ++ directAssetFieldsGet field.name ++ "\" " ++ jsStrOpt field.direction)
  else
    if field.name = "kit" then some ("\"kitName\" " ++ jsStrOpt field.direction)
    else if field.name = "category" then some ("\"categoryName\" " ++ jsStrOpt field.direction)
    else if field.name = "location" then some ("\"locationName\" " ++ jsStrOpt field.direction)
    else if field.name = "custody" then some ("custody->>'name' " ++ jsStrOpt field.direction)
    else if jsStartsWith field.name "cf_" then
      some (("cf_" ++ jsWsReplace (jsDrop field.name 3)) ++ " " ++ jsStrOpt field.direction)
    else none

/-- The custom-field sorting record contributed by one parsed sort
entry (only `cf_`-prefixed names contribute one). -/
def sortCfOf (field : SortField) : Option CustomFieldSorting :=
  if jsInDirectAssetFields field.name then none
  else
    if field.name = "kit" then none
    else if field.name = "category" then none
    else if field.name = "location" then none
    else if field.name = "custody" then none
    else if jsStartsWith field.name "cf_" then
      some ⟨jsDrop field.name 3, "raw", "cf_" ++ jsWsReplace (jsDrop field.name 3),
        field.fieldType⟩
    else none

/-- The warning contributed by one parsed sort entry (only unknown
names warn). -/
def sortWarnOf (field : SortField) : Option String :=
  if jsInDirectAssetFields field.name then none
  else
    if field.name = "kit" then none
    else if field.name = "category" then none
    else if field.name = "location" then none
    else if field.name = "custody" then none
    else if jsStartsWith field.name "cf_" then none
    else some ("Unknown sort field: " ++ field.name)

theorem sortFieldStep_eq (acc : List String × List CustomFieldSorting × List String)
    (field : SortField) :
    sortFieldStep acc field =
      (acc.1 ++ (sortPartOf field).toList, acc.2.1 ++ (sortCfOf field).toList,
       acc.2.2 ++ (sortWarnOf field).toList) := by
  unfold sortFieldStep sortPartOf sortCfOf sortWarnOf
  split_ifs <;> simp

/-- The loop of `parseSortingOptions` computes, for each output, the
concatenation of the per-entry contributions. -/
theorem sortFold_eq (fields : List SortField)
    (acc : List String × List CustomFieldSorting × List String) :
    fields.foldl sortFieldStep acc =
      (acc.1 ++ fields.filterMap sortPartOf, acc.2.1 ++ fields.filterMap sortCfOf,
       acc.2.2 ++ fields.filterMap sortWarnOf) := by
  induction fields generalizing acc with
  | nil => simp
  | cons f t ih =>
    rw [List.foldl_cons, sortFieldStep_eq, ih]
    simp only [List.filterMap_cons]
    cases sortPartOf f <;> cases sortCfOf f <;> cases sortWarnOf f <;> simp

/-- The `ORDER BY` parts of a `sortBy` list, in input order. -/
def orderByPartsOf (sortBy : List String) : List String :=
  (sortBy.map parseSortField).filterMap sortPartOf

/-- The custom-field sorting records of a `sortBy` list, in input order. -/
def customFieldSortingsOf (sortBy : List String) : List CustomFieldSorting :=
  (sortBy.map parseSortField).filterMap sortCfOf

/-- The warnings of a `sortBy` list, in input order. -/
def sortWarningsOf (sortBy : List String) : List String :=
  (sortBy.map parseSortField).filterMap sortWarnOf

/-- `parseSortingOptions`, characterized by the per-entry contribution
functions. -/
theorem parseSortingOptions_eq (sortBy : List String) :
    parseSortingOptions sortBy =
      ⟨if (orderByPartsOf sortBy).length > 0
         then "ORDER BY " ++ jsJoin ", " (orderByPartsOf sortBy) else "",
       customFieldSortingsOf sortBy, sortWarningsOf sortBy⟩ := by
  unfold parseSortingOptions orderByPartsOf customFieldSortingsOf sortWarningsOf
  dsimp only
  rw [sortFold_eq]
  simp

/-! ## Derived structure of the filter parser -/

/-- Modelled from the claim's wording: the per-field parse of a present
filter-value string (the text after the first `":"`). -/
def specFilterValue (field operator fv : String) : JsVal :=
  if field = "valuation" then
    if operator = "between" then .arr ((jsSplitChar ',' fv).map fun s => .num (.ofString s))
    else .num (.ofString fv)
  else if field = "availableToBook" then .bool (jsToLower fv == "true")
  else if field = "createdAt" then
    if operator = "between" then .arr ((jsSplitChar ',' fv).map JsVal.str) else .str fv
  else if field = "status" then
    if operator = "in" then .arr ((jsSplitChar ',' fv).map JsVal.str) else .str fv
  else .str fv

/-- When the post-colon value is present, `parseFilterValue` never
throws and agrees with the claim's description. -/
theorem parseFilterValue_present (field operator fv : String) :
    parseFilterValue field operator (some fv) = some (specFilterValue field operator fv) := by
  unfold parseFilterValue specFilterValue
  split_ifs <;> rfl

/-- One well-formed parameter (its value contains a `":"`) parses to the
claim's filter record. -/
theorem filterOfParam_wellFormed (k v : String)
    (h : 2 ≤ (jsSplitChar ':' v).length) :
    filterOfParam k v =
      some ⟨k, getFilterFieldType k, (jsSplitChar ':' v).getD 0 "",
        specFilterValue k ((jsSplitChar ':' v).getD 0 "") ((jsSplitChar ':' v).getD 1 "")⟩ := by
  unfold filterOfParam
  cases hsp : jsSplitChar ':' v with
  | nil => rw [hsp] at h; simp at h
  | cons a rest =>
    cases rest with
    | nil => rw [hsp] at h; simp at h
    | cons b rest2 => simp [parseFilterValue_present]

/-- `parseFilters` on well-formed parameters: one filter per parameter,
in order, as described by the claim. -/
theorem parseFilters_wellFormed (params : List (String × String))
    (h : ∀ p ∈ params, 2 ≤ (jsSplitChar ':' p.2).length) :
    parseFilters params = some (params.map fun p =>
      ⟨p.1, getFilterFieldType p.1, (jsSplitChar ':' p.2).getD 0 "",
        specFilterValue p.1 ((jsSplitChar ':' p.2).getD 0 "")
          ((jsSplitChar ':' p.2).getD 1 "")⟩) := by
  induction params with
  | nil => rfl
  | cons p t ih =>
    have hp := h p (List.mem_cons_self ..)
    have ht := ih fun q hq => h q (List.mem_cons_of_mem _ hq)
    unfold parseFilters at ht ⊢
    rw [List.mapM_cons, filterOfParam_wellFormed p.1 p.2 hp, ht]
    rfl

/-- The parsed filter of one parameter depends only on the first two
components of the value's split: everything after the second `":"` is
dropped. -/
theorem take2_aux (l l' : List String) (h : l.take 2 = l'.take 2) :
    l.getD 0 "" = l'.getD 0 "" ∧ l[1]? = l'[1]? := by
  cases l with
  | nil =>
    cases l' with
    | nil => simp
    | cons b t' => simp [List.take] at h
  | cons a t =>
    cases l' with
    | nil => simp [List.take] at h
    | cons b t' =>
      cases t with
      | nil =>
        cases t' with
        | nil => simp [List.take] at h; simp [h]
        | cons d u' => simp [List.take] at h
      | cons c u =>
        cases t' with
        | nil => simp [List.take] at h
        | cons d u' => simp [List.take] at h; simp [h.1, h.2]

theorem filterOfParam_take2 (k v1 v2 : String)
    (h : (jsSplitChar ':' v1).take 2 = (jsSplitChar ':' v2).take 2) :
    filterOfParam k v1 = filterOfParam k v2 := by
  obtain ⟨h0, h1⟩ := take2_aux _ _ h
  unfold filterOfParam
  dsimp only
  rw [h0, h1]

/-! ## Object-model lemmas for `getAssetsWhereInput` -/

theorem lookup_setField_self (fs : List (String × JVal)) (k : String) (v : JVal) :
    (setField fs k v).lookup k = some v := by
  induction fs with
  | nil => simp [setField, List.lookup]
  | cons p t ih =>
    unfold setField
    split_ifs with hh
    · simp [List.lookup]
    · have hb : (k == p.1) = false := beq_eq_false_iff_ne.mpr (Ne.symm hh)
      simp [List.lookup, hb, ih]

theorem lookup_setField_ne (fs : List (String × JVal)) (k k' : String) (v : JVal)
    (h : k ≠ k') :
    (setField fs k' v).lookup k = fs.lookup k := by
  have hb : (k == k') = false := beq_eq_false_iff_ne.mpr h
  induction fs with
  | nil => simp [setField, List.lookup, hb]
  | cons p t ih =>
    unfold setField
    split_ifs with hh
    · subst hh
      simp [List.lookup, hb]
    · cases hkp : (k == p.1) <;> simp [List.lookup, hkp, ih]

theorem objGet_objSet_self (fs : List (String × JVal)) (k : String) (v : JVal) :
    objGet (objSet (.obj fs) k v) k = some v := by
  simp [objGet, objSet, lookup_setField_self]

theorem objGet_objSet_ne (fs : List (String × JVal)) (k k' : String) (v : JVal)
    (h : k ≠ k') :
    objGet (objSet (.obj fs) k' v) k = objGet (.obj fs) k := by
  simp [objGet, objSet, lookup_setField_ne _ _ _ _ h]

/-- `applySearch` only ever writes the `title` key, and keeps the value
an object. -/
theorem applySearch_objGet (fs : List (String × JVal)) (s : Option String) :
    ∃ fs', applySearch (.obj fs) s = .obj fs'
      ∧ ∀ k, k ≠ "title" → objGet (.obj fs') k = objGet (.obj fs) k := by
  unfold applySearch
  cases s with
  | none => exact ⟨fs, rfl, fun k _ => rfl⟩
  | some str =>
    dsimp only
    split_ifs with h
    · exact ⟨_, rfl, fun k hk => objGet_objSet_ne fs k "title" _ hk⟩
    · exact ⟨fs, rfl, fun k _ => rfl⟩

/-- `applyStatus` only ever writes the `status` key. -/
theorem applyStatus_objGet (fs : List (String × JVal)) (s : Option String) :
    ∃ fs', applyStatus (.obj fs) s = .obj fs'
      ∧ ∀ k, k ≠ "status" → objGet (.obj fs') k = objGet (.obj fs) k := by
  unfold applyStatus
  cases s with
  | none => exact ⟨fs, rfl, fun k _ => rfl⟩
  | some st =>
    dsimp only
    split_ifs with h
    · exact ⟨_, rfl, fun k hk => objGet_objSet_ne fs k "status" _ hk⟩
    · exact ⟨fs, rfl, fun k _ => rfl⟩

theorem contains_of_mem {a : String} {l : List String} (h : a ∈ l) :
    l.contains a = true :=
  List.elem_iff.mpr h

/-- With `"uncategorized"` present, the categories block assigns
`where.OR` outright, discarding any previous `OR`. -/
theorem applyCategories_uncat (w : JVal) (ids : List String)
    (h : "uncategorized" ∈ ids) :
    applyCategories w ids = objSet w "OR" (.arr (catAlternatives ids)) := by
  have h1 : 0 < ids.length := List.length_pos.mpr (List.ne_nil_of_mem h)
  have h2 := contains_of_mem h
  simp [applyCategories, h1, h2, h]

/-- With `"untagged"` present, the tags block extends `where.OR ?? []`. -/
theorem applyTags_untag (w : JVal) (ids : List String)
    (h : "untagged" ∈ ids) :
    applyTags w ids = objSet w "OR" (.arr (orElems w ++ tagAlternatives ids)) := by
  have h1 : 0 < ids.length := List.length_pos.mpr (List.ne_nil_of_mem h)
  have h2 := contains_of_mem h
  simp [applyTags, h1, h2, h]

theorem applyLocations_nil (w : JVal) : applyLocations w [] = w := by
  simp [applyLocations]

theorem applyTeamMembers_nil (w : JVal) : applyTeamMembers w [] = w := by
  simp [applyTeamMembers]

theorem applyTeamMembers_cons (w : JVal) (ids : List String) (h : ids ≠ []) :
    applyTeamMembers w ids = objSet w "OR" (.arr (orElems w ++ custodyAlternatives ids)) := by
  have h1 : 0 < ids.length := List.length_pos.mpr h
  simp [applyTeamMembers, h1]

theorem orElems_objSet (fs : List (String × JVal)) (l : List JVal) :
    orElems (objSet (.obj fs) "OR" (.arr l)) = l := by
  simp [orElems, objGet_objSet_self]

/-! ## Facts about `cf_`-prefixed names -/

theorem isPrefixOf_append_self (l t : List Char) : l.isPrefixOf (l ++ t) = true := by
  induction l with
  | nil => simp [List.isPrefixOf]
  | cons c cs ih => simp [List.isPrefixOf, ih]

theorem cf_ne (X m : String) (h : m.data.take 3 ≠ ['c', 'f', '_']) :
    ("cf_" ++ X) ≠ m := by
  intro he
  apply h
  rw [← he, String.data_append]
  rfl

theorem cf_lookup_none (X : String) :
    directAssetFields.lookup ("cf_" ++ X) = none := by
  have b1 := beq_eq_false_iff_ne.mpr (cf_ne X "id" (by decide))
  have b2 := beq_eq_false_iff_ne.mpr (cf_ne X "name" (by decide))
  have b3 := beq_eq_false_iff_ne.mpr (cf_ne X "valuation" (by decide))
  have b4 := beq_eq_false_iff_ne.mpr (cf_ne X "status" (by decide))
  have b5 := beq_eq_false_iff_ne.mpr (cf_ne X "description" (by decide))
  have b6 := beq_eq_false_iff_ne.mpr (cf_ne X "createdAt" (by decide))
  have b7 := beq_eq_false_iff_ne.mpr (cf_ne X "availableToBook" (by decide))
  simp [directAssetFields, List.lookup, b1, b2, b3, b4, b5, b6, b7]

theorem cf_protoKeys_not_contains (X : String) :
    protoKeys.contains ("cf_" ++ X) = false := by
  have b1 := beq_eq_false_iff_ne.mpr (cf_ne X "constructor" (by decide))
  have b2 := beq_eq_false_iff_ne.mpr (cf_ne X "hasOwnProperty" (by decide))
  have b3 := beq_eq_false_iff_ne.mpr (cf_ne X "isPrototypeOf" (by decide))
  have b4 := beq_eq_false_iff_ne.mpr (cf_ne X "propertyIsEnumerable" (by decide))
  have b5 := beq_eq_false_iff_ne.mpr (cf_ne X "toLocaleString" (by decide))
  have b6 := beq_eq_false_iff_ne.mpr (cf_ne X "toString" (by decide))
  have b7 := beq_eq_false_iff_ne.mpr (cf_ne X "valueOf" (by decide))
  have b8 := beq_eq_false_iff_ne.mpr (cf_ne X "__proto__" (by decide))
  have b9 := beq_eq_false_iff_ne.mpr (cf_ne X "__defineGetter__" (by decide))
  have b10 := beq_eq_false_iff_ne.mpr (cf_ne X "__defineSetter__" (by decide))
  have b11 := beq_eq_false_iff_ne.mpr (cf_ne X "__lookupGetter__" (by decide))
  have b12 := beq_eq_false_iff_ne.mpr (cf_ne X "__lookupSetter__" (by decide))
  simp [protoKeys, List.contains, List.elem,
    b1, b2, b3, b4, b5, b6, b7, b8, b9, b10, b11, b12]

theorem cf_not_mem_protoKeys (X : String) : ("cf_" ++ X) ∉ protoKeys := by
  intro hm
  have := contains_of_mem hm
  rw [cf_protoKeys_not_contains] at this
  exact absurd this (by simp)

/-- A `cf_`-prefixed name is neither an own key of the alias table nor an
inherited `Object.prototype` key. -/
theorem cf_not_inDirect (X : String) :
    jsInDirectAssetFields ("cf_" ++ X) = false := by
  simp [jsInDirectAssetFields, cf_lookup_none, cf_not_mem_protoKeys]

theorem cf_startsWith (X : String) : jsStartsWith ("cf_" ++ X) "cf_" = true := by
  unfold jsStartsWith
  rw [String.data_append]
  exact isPrefixOf_append_self _ _

theorem cf_drop (X : String) : jsDrop ("cf_" ++ X) 3 = X := by
  unfold jsDrop
  rw [String.data_append]
  rfl

/-! # Claim theorems -/

/-- Claim C1, counterexample: the claim says every user-supplied part of a
filter — its field name and its value — enters the generated `Prisma.Sql`
only as a bound parameter.  In fact the field name is interpolated through
`Prisma.raw` and lands in the raw SQL text: compiling the single string
filter `FIELD is v1` produces a clause whose fragment list contains the
field name as a literal text fragment. -/
theorem c1_raw_field_name_counterexample :
    Frag.text "FIELD" ∈
      (generateWhereClause "org1" none
        [⟨"FIELD", FilterFieldType.string, "is", JsVal.str "v1"⟩]).getD [] := by
  have h : (generateWhereClause "org1" none
      [⟨"FIELD", FilterFieldType.string, "is", JsVal.str "v1"⟩]).getD []
      = [Frag.text "WHERE a.\"organizationId\" = ", Frag.param (JsVal.str "org1"),
         Frag.text " AND a.\"", Frag.text "FIELD", Frag.text "\" = ",
         Frag.param (JsVal.str "v1")] := rfl
  rw [h]
  exact List.Mem.tail _ (List.Mem.tail _ (List.Mem.tail _ (List.Mem.head _)))

/-- Claim C1, amended: every filter VALUE, the organization id and the
derived search query enter the generated `Prisma.Sql` only as bound query
parameters — the raw SQL text of the clause is independent of them,
depending only on each filter's name, type, operator and value shape and
on whether an active search is present at all — while the field NAME is
concatenated into the raw SQL text via `Prisma.raw`. -/
theorem c1_text_independent_of_values (org org' : String)
    (search search' : Option String) (fs fs' : List Filter)
    (hs : searchActive search = searchActive search')
    (h : fs.map filterShape = fs'.map filterShape) :
    (generateWhereClause org search fs).map textOf
      = (generateWhereClause org' search' fs').map textOf :=
  foldl_textOf_congr fs fs' _ _ (textOf_baseWhere org org' search search' hs) h

/-- Witness for the amended C1 at concrete inputs: different organization
ids, different search strings and different numeric values yield the same
raw SQL text. -/
theorem c1_text_independent_of_values_witness :
    searchActive (some "chair") = searchActive (some "stuhl lamp")
    ∧ ([⟨"valuation", FilterFieldType.number, "gt", JsVal.num (.ofString "5")⟩] : List Filter).map filterShape
      = ([⟨"valuation", FilterFieldType.number, "gt", JsVal.num (.ofString "777")⟩] : List Filter).map filterShape
    ∧ (generateWhereClause "orgA" (some "chair")
        [⟨"valuation", FilterFieldType.number, "gt", JsVal.num (.ofString "5")⟩]).map textOf
      = (generateWhereClause "orgB" (some "stuhl lamp")
        [⟨"valuation", FilterFieldType.number, "gt", JsVal.num (.ofString "777")⟩]).map textOf :=
  ⟨rfl, rfl, c1_text_independent_of_values "orgA" "orgB" (some "chair") (some "stuhl lamp")
    _ _ rfl rfl⟩

/-- Claim C3, counterexample: an enum `in` filter whose value is an empty
array neither appends a conjunct nor leaves the clause unchanged — the
compiler throws, because `Prisma.join([])` raises a `TypeError` in the
underlying sql-template-tag library. -/
theorem c3_join_throw_counterexample :
    generateWhereClause "org1" none
      [⟨"status", FilterFieldType.enum, "in", JsVal.arr []⟩] = none := rfl

/-- Claim C3, amended: `generateWhereClause` is a left fold over the filter list.
It equals the monadic left fold of `applyFilter` started from the base
clause; the base clause for a null search is exactly
`WHERE a."organizationId" = <org>`; a non-empty search wraps the base
clause with the full-text conjunct; with null search and no filters the
result is exactly the base clause; compiling `fs ++ gs` folds `gs` over
the result of compiling `fs`; and every filter application leaves the
clause unchanged or appends a single conjunct. -/
theorem c3_where_clause_fold :
    (∀ org search fs, generateWhereClause org search fs
        = fs.foldlM applyFilter (baseWhere org search))
    ∧ (∀ org : String, baseWhere org none
        = [Frag.text "WHERE a.\"organizationId\" = ", Frag.param (JsVal.str org)])
    ∧ (∀ (org s : String), s ≠ "" → jsWords s ≠ [] →
        baseWhere org (some s)
          = [Frag.text "\n        "] ++ baseWhere org none
            ++ [Frag.text " AND (\n          to_tsvector('english', a.\"title\" || ' ' || COALESCE(a.\"description\", '')) @@ to_tsquery('english', ",
                Frag.param (JsVal.str (searchQueryOf (jsWords s))),
                Frag.text ")\n        )\n      "])
    ∧ (∀ org : String, generateWhereClause org none [] = some (baseWhere org none))
    ∧ (∀ org search fs gs, generateWhereClause org search (fs ++ gs)
        = (generateWhereClause org search fs).bind fun wc => gs.foldlM applyFilter wc)
    ∧ (∀ wc f r, applyFilter wc f = some r →
        r = wc ∨ ∃ conj, conj ≠ [] ∧ r = wc ++ conj) := by
  refine ⟨fun org search fs => rfl, fun org => rfl, ?_, fun org => rfl,
    fun org search fs gs => foldlM_filters_append fs gs _, ?_⟩
  · intro org s hs hw
    unfold baseWhere
    dsimp only
    rw [if_neg hs, if_pos (List.length_pos.mpr hw)]
  · intro wc f r h
    rw [applyFilter_eq] at h
    cases hc : filterConj f with
    | none => rw [hc] at h; simp at h
    | some c =>
      rw [hc] at h
      simp only [Option.map_some', Option.some.injEq] at h
      subst h
      cases c with
      | nil => exact Or.inl (by simp)
      | cons x xs => exact Or.inr ⟨x :: xs, by simp, rfl⟩

/-- Witness for C3 at concrete inputs: the base clause of a one-word
search, and a concrete string filter appending exactly one conjunct. -/
theorem c3_where_clause_fold_witness :
    (baseWhere "o" (some "desk")
      = [Frag.text "\n        "] ++ baseWhere "o" none
        ++ [Frag.text " AND (\n          to_tsvector('english', a.\"title\" || ' ' || COALESCE(a.\"description\", '')) @@ to_tsquery('english', ",
            Frag.param (JsVal.str (searchQueryOf (jsWords "desk"))),
            Frag.text ")\n        )\n      "])
    ∧ ([Frag.text " AND a.\"", Frag.text "id", Frag.text "\" = ", Frag.param (JsVal.str "x")]
        = ([] : Sql)
      ∨ ∃ conj, conj ≠ []
          ∧ [Frag.text " AND a.\"", Frag.text "id", Frag.text "\" = ", Frag.param (JsVal.str "x")]
            = [] ++ conj) :=
  ⟨c3_where_clause_fold.2.2.1 "o" "desk" (by decide) (by decide),
   c3_where_clause_fold.2.2.2.2.2 [] ⟨"id", FilterFieldType.string, "is", JsVal.str "x"⟩ _ rfl⟩

/-- Claim C7, counterexample: the enum `in` case on an empty-array value
neither appends a conjunct nor leaves the clause unchanged — it throws
via `Prisma.join([])`. -/
theorem c7_join_throw_counterexample :
    applyFilter [Frag.text "WHERE x"]
      ⟨"status", FilterFieldType.enum, "in", JsVal.arr []⟩ = none := rfl

/-- Claim C7, amended: each filter type is compiled by a direct switch with fewer
than a dozen branching rules (its labelled operator cases plus the
default case); an operator outside the labelled cases leaves the clause
unchanged; and every case either appends a single `" AND "`-conjunct
templated from the filter or leaves the clause unchanged. -/
theorem c7_branch_rules :
    (∀ t, numBranchRules t < 12)
    ∧ (∀ wc (f : Filter), f.type ≠ FilterFieldType.boolean →
        f.operator ∉ handledOperators f.type → applyFilter wc f = some wc)
    ∧ (∀ wc f r, applyFilter wc f = some r →
        r = wc ∨ ∃ s rest, r = wc ++ (Frag.text s :: rest)
          ∧ jsStartsWith s " AND " = true) :=
  ⟨fun t => by cases t <;> decide, applyFilter_default, applyFilter_conjunct⟩

/-- Witness for C7 at concrete inputs: the number switch has 8 rules,
and `contains` on a number filter falls into its default case. -/
theorem c7_branch_rules_witness :
    numBranchRules FilterFieldType.number < 12
    ∧ applyFilter [Frag.text "WHERE"]
        ⟨"valuation", FilterFieldType.number, "contains", JsVal.str "x"⟩
      = some [Frag.text "WHERE"] :=
  ⟨c7_branch_rules.1 FilterFieldType.number,
   c7_branch_rules.2.1 [Frag.text "WHERE"]
     ⟨"valuation", FilterFieldType.number, "contains", JsVal.str "x"⟩
     (by decide) (by decide)⟩

/-- Claim C10: a malformed or unrecognized filter (default-case operator
for its type, a `between` whose value is not a two-element array, or an
enum `in` whose value is not an array) leaves the WHERE clause exactly as
it would be with that filter removed.  (`generateWhereClause` has no
warning channel at all — the source contains no `console.warn` — so no
warning is emitted either.) -/
theorem c10_malformed_filter_noop (org : String) (search : Option String)
    (pre post : List Filter) (f : Filter) (h : malformedFilter f) :
    generateWhereClause org search (pre ++ [f] ++ post)
      = generateWhereClause org search (pre ++ post) := by
  unfold generateWhereClause
  rw [show pre ++ [f] ++ post = pre ++ ([f] ++ post) by simp,
    foldlM_filters_append, foldlM_filters_append]
  cases hb : pre.foldlM applyFilter (baseWhere org search) with
  | none => simp
  | some wc => simp [List.foldlM_cons, applyFilter_malformed wc f h]

/-- Witness for C10 at a concrete input: `contains` on a number filter is
dropped from the compiled clause. -/
theorem c10_malformed_filter_noop_witness :
    generateWhereClause "o" none
        [⟨"id", FilterFieldType.string, "is", JsVal.str "a"⟩,
         ⟨"valuation", FilterFieldType.number, "contains", JsVal.str "x"⟩]
      = generateWhereClause "o" none [⟨"id", FilterFieldType.string, "is", JsVal.str "a"⟩] :=
  c10_malformed_filter_noop "o" none [⟨"id", FilterFieldType.string, "is", JsVal.str "a"⟩] []
    ⟨"valuation", FilterFieldType.number, "contains", JsVal.str "x"⟩
    (Or.inl ⟨by decide, by decide⟩)

theorem lookup_directAssetFields_none (n : String)
    (h : n ∉ ["id", "name", "valuation", "status", "description",
      "createdAt", "availableToBook"]) :
    directAssetFields.lookup n = none := by
  simp only [List.mem_cons, List.not_mem_nil, or_false, not_or] at h
  obtain ⟨h1, h2, h3, h4, h5, h6, h7⟩ := h
  simp [directAssetFields, List.lookup,
    beq_eq_false_iff_ne.mpr h1, beq_eq_false_iff_ne.mpr h2,
    beq_eq_false_iff_ne.mpr h3, beq_eq_false_iff_ne.mpr h4,
    beq_eq_false_iff_ne.mpr h5, beq_eq_false_iff_ne.mpr h6,
    beq_eq_false_iff_ne.mpr h7]

/-- Claim C2, counterexample: the entry `toString:asc` is unknown in the
claim's sense (not one of the seven direct fields, not
kit/category/location/custody, no `cf_` prefix), yet the program emits no
warning and produces a different `ORDER BY` clause than with the entry
removed: `"toString" in directAssetFields` is true through the JS
prototype chain, so the direct-field branch pushes the stringified
inherited member as a part. -/
theorem c2_proto_key_counterexample :
    (parseSortField "toString:asc").name ∉ ["id", "name", "valuation", "status",
      "description", "createdAt", "availableToBook"]
    ∧ (parseSortField "toString:asc").name ∉ ["kit", "category", "location", "custody"]
    ∧ jsStartsWith (parseSortField "toString:asc").name "cf_" = false
    ∧ (parseSortingOptions ["toString:asc"]).warnings = []
    ∧ (parseSortingOptions ["toString:asc"]).orderByClause
        ≠ (parseSortingOptions []).orderByClause := by
  decide

/-- Claim C2, amended: an entry whose name is not a direct asset field,
not an `Object.prototype` key (which the JS `in` operator also accepts),
not `kit`/`category`/`location`/`custody`, and does not start with `cf_`
is warned about and ignored: the `parseSortingOptions` outputs (order-by
clause and custom-field sortings) are exactly those of the list with the
entry removed, and the warning for that entry is emitted. -/
theorem c2_unknown_sort_field_ignored (pre post : List String) (e : String)
    (h7 : (parseSortField e).name ∉ ["id", "name", "valuation", "status",
      "description", "createdAt", "availableToBook"])
    (hproto : (parseSortField e).name ∉ protoKeys)
    (h4 : (parseSortField e).name ∉ ["kit", "category", "location", "custody"])
    (hcf : jsStartsWith (parseSortField e).name "cf_" = false) :
    (parseSortingOptions (pre ++ [e] ++ post)).orderByClause
        = (parseSortingOptions (pre ++ post)).orderByClause
    ∧ (parseSortingOptions (pre ++ [e] ++ post)).customFieldSortings
        = (parseSortingOptions (pre ++ post)).customFieldSortings
    ∧ ("Unknown sort field: " ++ (parseSortField e).name)
        ∈ (parseSortingOptions (pre ++ [e] ++ post)).warnings := by
  have hlook := lookup_directAssetFields_none _ h7
  have hin : jsInDirectAssetFields (parseSortField e).name = false := by
    simp [jsInDirectAssetFields, hlook, hproto]
  simp only [List.mem_cons, List.not_mem_nil, or_false, not_or] at h4
  obtain ⟨hk1, hk2, hk3, hk4⟩ := h4
  have hpart : sortPartOf (parseSortField e) = none := by
    simp [sortPartOf, hin, hk1, hk2, hk3, hk4, hcf]
  have hcfs : sortCfOf (parseSortField e) = none := by
    simp [sortCfOf, hin, hk1, hk2, hk3, hk4, hcf]
  have hwarn : sortWarnOf (parseSortField e)
      = some ("Unknown sort field: " ++ (parseSortField e).name) := by
    simp [sortWarnOf, hin, hk1, hk2, hk3, hk4, hcf]
  rw [parseSortingOptions_eq, parseSortingOptions_eq]
  have hp : orderByPartsOf (pre ++ [e] ++ post) = orderByPartsOf (pre ++ post) := by
    simp [orderByPartsOf, List.filterMap_append, hpart]
  have hc : customFieldSortingsOf (pre ++ [e] ++ post)
      = customFieldSortingsOf (pre ++ post) := by
    simp [customFieldSortingsOf, List.filterMap_append, hcfs]
  refine ⟨by rw [hp], by rw [hc], ?_⟩
  simp [sortWarningsOf, List.filterMap_append, hwarn]

/-- Witness for C2 at a concrete input: the entry `foo:desc` is ignored
and warned about. -/
theorem c2_unknown_sort_field_ignored_witness :
    (parseSortingOptions ["name:asc", "foo:desc"]).orderByClause
        = (parseSortingOptions ["name:asc"]).orderByClause
    ∧ (parseSortingOptions ["name:asc", "foo:desc"]).customFieldSortings
        = (parseSortingOptions ["name:asc"]).customFieldSortings
    ∧ ("Unknown sort field: " ++ (parseSortField "foo:desc").name)
        ∈ (parseSortingOptions ["name:asc", "foo:desc"]).warnings :=
  c2_unknown_sort_field_ignored ["name:asc"] [] "foo:desc"
    (by decide) (by decide) (by decide) (by decide)

/-- Claim C6: normal-column sort keys map to `ORDER BY` fragments via the
fixed alias table, and the returned clause is the empty string when no
entry produced a part, else `ORDER BY` with the parts joined by `", "` in
input order. -/
theorem c6_normal_sort_columns :
    (∀ sortBy, (parseSortingOptions sortBy).orderByClause
        = if orderByPartsOf sortBy = [] then ""
          else "ORDER BY " ++ jsJoin ", " (orderByPartsOf sortBy))
    ∧ (∀ s n d r, jsSplitChar ':' s = n :: d :: r →
        (n = "id" → sortPartOf (parseSortField s) = some ("\"assetId\" " ++ d))
        ∧ (n = "name" → sortPartOf (parseSortField s) = some ("\"assetTitle\" " ++ d))
        ∧ (n = "valuation" → sortPartOf (parseSortField s) = some ("\"assetValue\" " ++ d))
        ∧ (n = "status" → sortPartOf (parseSortField s) = some ("\"assetStatus\" " ++ d))
        ∧ (n = "description" → sortPartOf (parseSortField s) = some ("\"assetDescription\" " ++ d))
        ∧ (n = "createdAt" → sortPartOf (parseSortField s) = some ("\"assetCreatedAt\" " ++ d))
        ∧ (n = "availableToBook" → sortPartOf (parseSortField s) = some ("\"assetAvailableToBook\" " ++ d))
        ∧ (n = "kit" → sortPartOf (parseSortField s) = some ("\"kitName\" " ++ d))
        ∧ (n = "category" → sortPartOf (parseSortField s) = some ("\"categoryName\" " ++ d))
        ∧ (n = "location" → sortPartOf (parseSortField s) = some ("\"locationName\" " ++ d))
        ∧ (n = "custody" → sortPartOf (parseSortField s) = some ("custody->>'name' " ++ d))) := by
  constructor
  · intro sortBy
    rw [parseSortingOptions_eq]
    cases orderByPartsOf sortBy <;> simp
  · intro s n d r hsp
    have hpf : parseSortField s = ⟨n, some d, r[0]?⟩ := by
      simp [parseSortField, hsp]
    refine ⟨?_, ?_, ?_, ?_, ?_, ?_, ?_, ?_, ?_, ?_, ?_⟩ <;>
      (intro hn; subst hn;
       simp [sortPartOf, hpf, jsInDirectAssetFields, directAssetFieldsGet,
         directAssetFields, protoKeys, List.lookup, List.contains, List.elem, jsStrOpt])

/-- Witness for C6 at concrete inputs: `name:desc` sorts on the
`assetTitle` alias, and a two-entry list joins its parts. -/
theorem c6_normal_sort_columns_witness :
    (parseSortingOptions ["name:desc", "status:asc"]).orderByClause
        = (if orderByPartsOf ["name:desc", "status:asc"] = [] then ""
           else "ORDER BY " ++ jsJoin ", " (orderByPartsOf ["name:desc", "status:asc"]))
    ∧ sortPartOf (parseSortField "name:desc") = some ("\"assetTitle\" " ++ "desc") :=
  ⟨c6_normal_sort_columns.1 ["name:desc", "status:asc"],
   ((c6_normal_sort_columns.2 "name:desc" "name" "desc" [] (by decide)).2.1) rfl⟩

/-- Claim C5: a sort entry `cf_X:dir:ftype` appends the custom-field
sorting record `{name := X, valueKey := "raw", alias := "cf_" ++ X with
whitespace runs replaced by "_", fieldType := ftype}` and the order-by
part `<alias> <dir>`; `generateCustomFieldSelect` returns `Prisma.empty`
exactly for the empty list and otherwise `, ` followed by one correlated
subquery per record joined by `,`, each aliased by the record's alias
with its `CASE` scrutinee and custom-field name as bound parameters. -/
theorem c5_custom_field_sort :
    (∀ ss s X d ft, jsSplitChar ':' s = ["cf_" ++ X, d, ft] →
        customFieldSortingsOf (ss ++ [s])
            = customFieldSortingsOf ss
              ++ [⟨X, "raw", "cf_" ++ jsWsReplace X, some ft⟩]
          ∧ orderByPartsOf (ss ++ [s])
            = orderByPartsOf ss ++ [("cf_" ++ jsWsReplace X) ++ " " ++ d]
          ∧ (parseSortingOptions (ss ++ [s])).customFieldSortings
            = customFieldSortingsOf (ss ++ [s]))
    ∧ (∀ cfs, generateCustomFieldSelect cfs = [] ↔ cfs = [])
    ∧ (∀ cfs, cfs ≠ [] →
        generateCustomFieldSelect cfs
          = [Frag.text ", "] ++ sqlIntercalate [Frag.text ","] (cfs.map cfSubquery)) := by
  refine ⟨?_, ?_, ?_⟩
  · intro ss s X d ft hsp
    have hpf : parseSortField s = ⟨"cf_" ++ X, some d, some ft⟩ := by
      simp [parseSortField, hsp]
    have hin := cf_not_inDirect X
    have hk1 := cf_ne X "kit" (by decide)
    have hk2 := cf_ne X "category" (by decide)
    have hk3 := cf_ne X "location" (by decide)
    have hk4 := cf_ne X "custody" (by decide)
    have hcf : sortCfOf (parseSortField s)
        = some ⟨X, "raw", "cf_" ++ jsWsReplace X, some ft⟩ := by
      simp [sortCfOf, hpf, hin, hk1, hk2, hk3, hk4, cf_startsWith, cf_drop]
    have hpart : sortPartOf (parseSortField s)
        = some (("cf_" ++ jsWsReplace X) ++ " " ++ d) := by
      simp [sortPartOf, hpf, hin, hk1, hk2, hk3, hk4, cf_startsWith, cf_drop, jsStrOpt]
    refine ⟨?_, ?_, ?_⟩
    · simp [customFieldSortingsOf, List.filterMap_append, hcf]
    · simp [orderByPartsOf, List.filterMap_append, hpart]
    · rw [parseSortingOptions_eq]
  · intro cfs
    cases cfs with
    | nil => simp [generateCustomFieldSelect]
    | cons c t => simp [generateCustomFieldSelect]
  · intro cfs h
    rw [generateCustomFieldSelect, if_neg (by simpa using h)]

/-- Witness for C5 at a concrete input: `cf_my field:asc:NUMBER` appends
the record with alias `cf_my_field` and the part `cf_my_field asc`. -/
theorem c5_custom_field_sort_witness :
    customFieldSortingsOf (["name:asc"] ++ ["cf_" ++ "my field" ++ ":asc:NUMBER"])
        = customFieldSortingsOf ["name:asc"]
          ++ [⟨"my field", "raw", "cf_" ++ jsWsReplace "my field", some "NUMBER"⟩]
      ∧ orderByPartsOf (["name:asc"] ++ ["cf_" ++ "my field" ++ ":asc:NUMBER"])
        = orderByPartsOf ["name:asc"]
          ++ [("cf_" ++ jsWsReplace "my field") ++ " " ++ "asc"]
      ∧ (parseSortingOptions (["name:asc"] ++ ["cf_" ++ "my field" ++ ":asc:NUMBER"])).customFieldSortings
        = customFieldSortingsOf (["name:asc"] ++ ["cf_" ++ "my field" ++ ":asc:NUMBER"]) :=
  c5_custom_field_sort.1 ["name:asc"] ("cf_" ++ "my field" ++ ":asc:NUMBER")
    "my field" "asc" "NUMBER" (by decide)

/-- Claim C4, counterexample: the claim promises one filter per
query-string parameter for every filters string, but the parameter
`availableToBook=yes` (whose value has no `":"`) makes `parseFilters`
throw (`undefined.toLowerCase()`), so no filter list is returned. -/
theorem c4_throwing_param_counterexample :
    parseFilters [("availableToBook", "yes")] = none := rfl

/-- Claim C4, amended: for every filters string in which each parameter
value contains at least one `":"`, `parseFilters` returns one filter per
parameter, in order, with name the parameter key, type given by the fixed
field-name table, operator the text before the first `":"`, and value
parsed per field as the claim describes. -/
theorem c4_filters_decoded :
    (∀ (params : List (String × String)),
        (∀ p ∈ params, 2 ≤ (jsSplitChar ':' p.2).length) →
        parseFilters params = some (params.map fun p =>
          ⟨p.1, getFilterFieldType p.1, (jsSplitChar ':' p.2).getD 0 "",
            specFilterValue p.1 ((jsSplitChar ':' p.2).getD 0 "")
              ((jsSplitChar ':' p.2).getD 1 "")⟩))
    ∧ getFilterFieldType "id" = FilterFieldType.string
    ∧ getFilterFieldType "status" = FilterFieldType.enum
    ∧ getFilterFieldType "description" = FilterFieldType.text
    ∧ getFilterFieldType "valuation" = FilterFieldType.number
    ∧ getFilterFieldType "availableToBook" = FilterFieldType.boolean
    ∧ getFilterFieldType "createdAt" = FilterFieldType.date
    ∧ (∀ k, k ∉ ["id", "status", "description", "valuation",
          "availableToBook", "createdAt"] →
        getFilterFieldType k = FilterFieldType.string) := by
  refine ⟨parseFilters_wellFormed, rfl, rfl, rfl, rfl, rfl, rfl, ?_⟩
  intro k hk
  simp only [List.mem_cons, List.not_mem_nil, or_false, not_or] at hk
  obtain ⟨n1, n2, n3, n4, n5, n6⟩ := hk
  unfold getFilterFieldType
  rw [if_neg n1, if_neg n2, if_neg n3, if_neg n4, if_neg n5, if_neg n6]

/-- Witness for the amended C4 at a concrete input: a valuation range
filter and an unknown field decode to the described records. -/
theorem c4_filters_decoded_witness :
    parseFilters [("valuation", "between:10,20"), ("foo", "is:bar")]
      = some [⟨"valuation", FilterFieldType.number, "between",
                JsVal.arr [JsVal.num (.ofString "10"), JsVal.num (.ofString "20")]⟩,
              ⟨"foo", FilterFieldType.string, "is", JsVal.str "bar"⟩] :=
  c4_filters_decoded.1 [("valuation", "between:10,20"), ("foo", "is:bar")] (by decide)

/-- Claim C8: `parseFilters` is partial at the public interface — a
parameter for `availableToBook` (any colon-less value), or for
`valuation`/`createdAt` with value `between`, or for `status` with value
`in`, makes it throw — and for any parameter value, everything after the
second `":"` is silently dropped: the parsed filter depends only on the
first two components of the split. -/
theorem c8_parser_partial :
    parseFilters [("availableToBook", "x")] = none
    ∧ parseFilters [("valuation", "between")] = none
    ∧ parseFilters [("createdAt", "between")] = none
    ∧ parseFilters [("status", "in")] = none
    ∧ (∀ k v1 v2, (jsSplitChar ':' v1).take 2 = (jsSplitChar ':' v2).take 2 →
        filterOfParam k v1 = filterOfParam k v2) :=
  ⟨rfl, rfl, rfl, rfl, filterOfParam_take2⟩

/-- Witness for C8 at a concrete input: the text after the second `":"`
does not influence the parsed filter. -/
theorem c8_parser_partial_witness :
    filterOfParam "valuation" "is:10:dropped-junk" = filterOfParam "valuation" "is:10" :=
  c8_parser_partial.2.2.2.2 "valuation" "is:10:dropped-junk" "is:10" (by decide)

theorem objSet_obj (fs : List (String × JVal)) (k : String) (v : JVal) :
    objSet (JVal.obj fs) k v = JVal.obj (setField fs k v) := rfl

/-- Claim C9: with `"uncategorized"` among the category ids and
`"untagged"` among the tag ids (and no location filter), the returned
where-object has one flat top-level `OR` holding the category
alternatives and the tag alternatives side by side (followed by the
custody alternatives when team members are present); the groups are not
required conjunctively (`categoryId` and `tags` are unset); and the
`uncategorized` branch overwrites any existing `OR` outright. -/
theorem c9_flat_or_disjunction (org : String) (cats tags tms : List String)
    (search status : Option String)
    (hc : "uncategorized" ∈ cats) (ht : "untagged" ∈ tags) :
    objGet (getAssetsWhereInput org (some ⟨cats, [], tags, search, tms, status⟩)) "OR"
        = some (.arr (catAlternatives cats ++ tagAlternatives tags
            ++ if tms = [] then [] else custodyAlternatives tms))
    ∧ objGet (getAssetsWhereInput org (some ⟨cats, [], tags, search, tms, status⟩)) "categoryId"
        = none
    ∧ objGet (getAssetsWhereInput org (some ⟨cats, [], tags, search, tms, status⟩)) "tags"
        = none
    ∧ (∀ fs ids, "uncategorized" ∈ ids →
        objGet (applyCategories (JVal.obj fs) ids) "OR"
          = some (.arr (catAlternatives ids))) := by
  have hover : ∀ (fs : List (String × JVal)) ids, "uncategorized" ∈ ids →
      objGet (applyCategories (JVal.obj fs) ids) "OR"
        = some (.arr (catAlternatives ids)) := by
    intro fs ids h
    rw [applyCategories_uncat _ _ h, objSet_obj]
    exact objGet_objSet_self ..
  obtain ⟨fs1, e1, p1⟩ := applySearch_objGet [("organizationId", JVal.str org)] search
  obtain ⟨fs2, e2, p2⟩ := applyStatus_objGet fs1 (if status = some "ALL" then none else status)
  have hw : getAssetsWhereInput org (some ⟨cats, [], tags, search, tms, status⟩)
      = applyTeamMembers (applyTags (applyCategories (JVal.obj fs2) cats) tags) tms := by
    unfold getAssetsWhereInput
    dsimp only
    rw [e1, e2, applyLocations_nil]
  have h4 : applyTags (applyCategories (JVal.obj fs2) cats) tags
      = objSet (objSet (JVal.obj fs2) "OR" (.arr (catAlternatives cats))) "OR"
          (.arr (catAlternatives cats ++ tagAlternatives tags)) := by
    rw [applyCategories_uncat _ _ hc, applyTags_untag _ _ ht, orElems_objSet]
  have hcatId : objGet (JVal.obj fs2) "categoryId" = none := by
    rw [p2 _ (by decide), p1 _ (by decide)]
    rfl
  have htagsKey : objGet (JVal.obj fs2) "tags" = none := by
    rw [p2 _ (by decide), p1 _ (by decide)]
    rfl
  have hcatId2 : fs2.lookup "categoryId" = none := by simpa [objGet] using hcatId
  have htagsKey2 : fs2.lookup "tags" = none := by simpa [objGet] using htagsKey
  cases tms with
  | nil =>
    rw [hw, applyTeamMembers_nil, h4]
    refine ⟨?_, ?_, ?_, hover⟩
    · simp only [objSet_obj, objGet, lookup_setField_self]
      simp
    · simp only [objSet_obj, objGet]
      rw [lookup_setField_ne _ _ _ _ (by decide), lookup_setField_ne _ _ _ _ (by decide)]
      exact hcatId2
    · simp only [objSet_obj, objGet]
      rw [lookup_setField_ne _ _ _ _ (by decide), lookup_setField_ne _ _ _ _ (by decide)]
      exact htagsKey2
  | cons a l =>
    have h6 : applyTeamMembers
        (objSet (objSet (JVal.obj fs2) "OR" (.arr (catAlternatives cats))) "OR"
          (.arr (catAlternatives cats ++ tagAlternatives tags))) (a :: l)
        = objSet (objSet (objSet (JVal.obj fs2) "OR" (.arr (catAlternatives cats))) "OR"
            (.arr (catAlternatives cats ++ tagAlternatives tags))) "OR"
            (.arr ((catAlternatives cats ++ tagAlternatives tags)
              ++ custodyAlternatives (a :: l))) := by
      rw [applyTeamMembers_cons _ _ (by simp), objSet_obj, orElems_objSet]
    rw [hw, h4, h6]
    refine ⟨?_, ?_, ?_, hover⟩
    · simp only [objSet_obj, objGet, lookup_setField_self]
      simp
    · simp only [objSet_obj, objGet]
      rw [lookup_setField_ne _ _ _ _ (by decide), lookup_setField_ne _ _ _ _ (by decide),
        lookup_setField_ne _ _ _ _ (by decide)]
      exact hcatId2
    · simp only [objSet_obj, objGet]
      rw [lookup_setField_ne _ _ _ _ (by decide), lookup_setField_ne _ _ _ _ (by decide),
        lookup_setField_ne _ _ _ _ (by decide)]
      exact htagsKey2

/-- Witness for C9 at a concrete input: one flat OR with the category and
tag alternatives side by side, and the overwrite of a pre-existing OR. -/
theorem c9_flat_or_disjunction_witness :
    objGet (getAssetsWhereInput "o"
        (some ⟨["uncategorized"], [], ["untagged"], none, [], none⟩)) "OR"
      = some (.arr (catAlternatives ["uncategorized"] ++ tagAlternatives ["untagged"]
          ++ if ([] : List String) = [] then [] else custodyAlternatives []))
    ∧ objGet (applyCategories (JVal.obj [("OR", JVal.arr [JVal.null])]) ["uncategorized"]) "OR"
      = some (.arr (catAlternatives ["uncategorized"])) :=
  ⟨(c9_flat_or_disjunction "o" ["uncategorized"] ["untagged"] [] none none
      (by decide) (by decide)).1,
   (c9_flat_or_disjunction "o" ["uncategorized"] ["untagged"] [] none none
      (by decide) (by decide)).2.2.2 [("OR", JVal.arr [JVal.null])] ["uncategorized"]
      (by decide)⟩

end Shelf
